import Mathlib

/-!
Verification of the p2p file-sharing application: the signaling relay server
(src/p2p/i.js) and the client transfer engine (src/p2p/public/app.js).

Machine bytes are modelled as `Nat`, socket/peer identifiers as `String`.
JavaScript objects whose point is dynamic key lookup (the client `config` and
`state` objects) are modelled as association lists of `JsVal`, so that a read
of a missing property yields `none` (JavaScript `undefined`).

The client source file ends after `getDeploymentConfig`; the functions
`sendNextFile` (the chunking loop) and the receive-side reassembly engine are
referenced but absent from the file, so those two pieces are modelled from the
specification (doc comments on the corresponding definitions say so).
-/

namespace P2P

/-! ## Relay server (src/p2p/i.js) -/

/-- Events the relay can emit to a socket: the four signaling events of i.js. -/
inductive SignalEmit where
  | offer (payload : String) (senderId : String)
  | answer (payload : String)
  | iceCandidate (payload : String)
  | peers (ids : List String)
deriving DecidableEq

/-- An emission is a target socket identifier together with the emitted event. -/
abbrev Emission := String × SignalEmit

/-- Inbound socket events a connected client can send to the relay. -/
inductive ServerEvent where
  | discover
  | offer (payload : String) (targetId : String)
  | answer (payload : String) (targetId : String)
  | iceCandidate (payload : String) (targetId : String)
  | disconnect
deriving DecidableEq

/-- The handlers registered inside `io.on('connection')` in i.js (lines 40-55):
`offer` is forwarded to the target with `socket.id` injected as the sender,
`answer` and `ice-candidate` are forwarded verbatim, `disconnect` clears the
periodic timer and emits nothing.  i.js registers no handler for `discover`,
so a `discover` event produces no emission. -/
def handleSocketEvent (connectedIds : List String) (selfId : String) :
    ServerEvent → List Emission
  | .offer payload targetId => [(targetId, .offer payload selfId)]
  | .answer payload targetId => [(targetId, .answer payload)]
  | .iceCandidate payload targetId => [(targetId, .iceCandidate payload)]
  | .discover => []
  | .disconnect => []

/-- `broadcastPeers` in i.js (lines 32-36): every 3000 ms the relay emits to
the socket the list of all connected socket ids other than its own. -/
def broadcastPeers (connectedIds : List String) (selfId : String) : Emission :=
  (selfId, .peers (connectedIds.filter (fun id => id != selfId)))

/-- Response body of the network-info endpoint; fields are `Option` because a
JavaScript object may lack a key (`undefined`) or hold `null`. -/
structure NetworkInfo where
  localIp : Option String
  publicUrl : Option String
deriving DecidableEq

/-- The `GET /network` handler in i.js (lines 20-25): unconditionally responds
with a JSON object holding the resolved interface address and the public URL
built from the two environment variables. -/
def networkHandler (ipAddress : String) (codespaceName : String)
    (forwardDomain : String) : NetworkInfo :=
  { localIp := some ipAddress
  , publicUrl := some ("https://" ++ codespaceName ++ "-3000." ++ forwardDomain) }

/-! ## Client (src/p2p/public/app.js) -/

/-- Outcome of the `fetch('/network')` call as observed by the client. -/
inductive FetchOutcome where
  | ok (body : NetworkInfo)
  | notOk
  | fetchFailed
deriving DecidableEq

/-- `fetchNetworkInfo` in app.js (lines 68-77): the whole call is inside a
try/catch; a non-ok response throws into the catch, and the catch returns
the object with `localIp` set to `null` instead of re-raising. -/
def fetchNetworkInfo : FetchOutcome → Except String NetworkInfo
  | .ok body => .ok body
  | .notOk => .ok { localIp := none, publicUrl := none }
  | .fetchFailed => .ok { localIp := none, publicUrl := none }

/-- Dynamic JavaScript values, enough to embed the `config` and `state`
object literals of app.js. -/
inductive JsVal where
  | null
  | num (n : Nat)
  | str (s : String)
  | arr (xs : List JsVal)
  | field (key : String) (value : JsVal)
  | obj (fields : List JsVal)

/-- JavaScript property read: a missing key yields `undefined` (`none`). -/
def jsGet (o : List (String × JsVal)) (k : String) : Option JsVal :=
  (o.find? (fun p => p.1 == k)).map Prod.snd

/-- The `config` object literal of app.js (lines 18-27).  Note it has no
`maxConnectionAttempts` key; that key lives on `state`. -/
def configObj : List (String × JsVal) :=
  [ ("CHUNK_SIZE", .num 16384)
  , ("ICE_SERVERS", .arr
      [ .obj [.field "urls" (.str "stun:stun.l.google.com:19302")]
      , .obj [.field "urls" (.str "stun:stun1.l.google.com:19302")]
      , .obj [.field "urls" (.str "stun:stun2.l.google.com:19302")] ])
  , ("RECONNECT_DELAY", .num 3000)
  , ("TRANSFER_TIMEOUT", .num 30000) ]

/-- The `state` object literal of app.js (lines 2-16), non-object fields. -/
def stateObj : List (String × JsVal) :=
  [ ("socket", .null)
  , ("peer", .null)
  , ("localPeerId", .str "")
  , ("selectedPeerId", .str "")
  , ("fileQueue", .arr [])
  , ("currentFileIndex", .num 0)
  , ("currentFile", .null)
  , ("currentOffset", .num 0)
  , ("receivedBuffers", .obj [])
  , ("receivedSize", .num 0)
  , ("totalSize", .num 0)
  , ("connectionAttempts", .num 0)
  , ("maxConnectionAttempts", .num 5) ]

/-- The options object passed to `io(...)` in `initializeSocketConnection`
(app.js lines 81-86), with the two `config.*` property reads embedded as
lookups on `configObj`. -/
structure SocketOptions where
  reconnection : Bool
  reconnectionAttempts : Option JsVal
  reconnectionDelay : Option JsVal
  transports : List String

def initializeSocketOptions : SocketOptions :=
  { reconnection := true
  , reconnectionAttempts := jsGet configObj "maxConnectionAttempts"
  , reconnectionDelay := jsGet configObj "RECONNECT_DELAY"
  , transports := ["websocket"] }

/-! ## Transfer engine -/

/-- `config.CHUNK_SIZE` (app.js line 19). -/
def CHUNK_SIZE : Nat := 16384

/-- A queued file: the browser `File` object as used by the engine.  Its
`size` attribute is by construction the length of its byte content. -/
structure QFile where
  name : String
  type : String
  lastModified : Nat
  bytes : List Nat
deriving DecidableEq

def QFile.size (f : QFile) : Nat := f.bytes.length

/-- One entry of the `files` array in the metadata message
(app.js lines 235-240). -/
structure FileMeta where
  name : String
  type : String
  size : Nat
  lastModified : Nat
deriving DecidableEq

/-- The descriptor built for each queued file in `startFileTransfer`. -/
def descriptor (f : QFile) : FileMeta :=
  { name := f.name, type := f.type, size := f.size, lastModified := f.lastModified }

/-- `handleFileSelect` (app.js lines 147-179), the part that fills the
transfer state: `state.fileQueue` becomes the selected files and
`state.totalSize` their summed `size` attributes (the `reduce` on line 155). -/
def handleFileSelect (files : List QFile) : List QFile × Nat :=
  (files, (files.map QFile.size).sum)

/-- Messages of one transfer session: the single JSON metadata control
message, then raw binary chunks. -/
inductive Msg where
  | metadata (files : List FileMeta) (totalSize : Nat) (timestamp : Nat)
  | chunk (data : List Nat)
deriving DecidableEq

def Msg.isMetadata : Msg → Bool
  | .metadata _ _ _ => true
  | .chunk _ => false

/-- Fuel-indexed chunk slicing; the fuel only bounds the iteration count and
is instantiated with the list length, which always suffices. -/
def chunksOfFuel (n : Nat) : Nat → List Nat → List (List Nat)
  | 0, _ => []
  | _ + 1, [] => []
  | fuel + 1, a :: l => ((a :: l).take n) :: chunksOfFuel n fuel ((a :: l).drop n)

/-- Modelled from the spec: `sendNextFile` is referenced but missing from
app.js, and §4.3 step 3 says it repeatedly slices up to `CHUNK_SIZE` unsent
bytes from the current file, sending each slice as one chunk and advancing
the offset until the file is exhausted.  `chunksOf n l` is the resulting
sequence of slices of `l` with slice bound `n`. -/
def chunksOf (n : Nat) (l : List Nat) : List (List Nat) :=
  chunksOfFuel n l.length l

/-- The full chunk stream of a queue: each file's chunks in queue order
(spec §4.3 sender steps 3-4; `sendNextFile` is missing from app.js). -/
def senderChunkStream (queue : List QFile) : List (List Nat) :=
  (queue.map (fun f => chunksOf CHUNK_SIZE f.bytes)).flatten

/-- `startFileTransfer` (app.js lines 229-251) as the message sequence it
hands to `sendData`: first the metadata message listing every queued file's
descriptor and the session total size, then the chunk stream. -/
def startFileTransferMsgs (queue : List QFile) (totalSize timestamp : Nat) :
    List Msg :=
  .metadata (queue.map descriptor) totalSize timestamp
    :: (senderChunkStream queue).map .chunk

/-- Modelled from the spec: the chunk-sending loop of the missing
`sendNextFile`, instrumented with per-send outcomes.  `outcomes k` is whether
the k-th `sendData` call of the session succeeds; §4.3 step 5 says the engine
halts at the first failed send, so a failed chunk attempt is recorded and
nothing follows it. -/
def sendChunksFrom (outcomes : Nat → Bool) (k : Nat) :
    List (List Nat) → List (Msg × Bool)
  | [] => []
  | c :: cs =>
    if outcomes k then (.chunk c, true) :: sendChunksFrom outcomes (k + 1) cs
    else [(.chunk c, false)]

/-- `startFileTransfer` (app.js lines 229-251) as its sequence of send
attempts.  The source calls `sendData(JSON.stringify(metadata))` and then
unconditionally calls `sendNextFile()`: the boolean result of the metadata
send is discarded, so the chunk stage runs whatever that result was. -/
def startFileTransferAttempts (queue : List QFile) (timestamp : Nat)
    (outcomes : Nat → Bool) : List (Msg × Bool) :=
  (.metadata (queue.map descriptor) ((queue.map QFile.size).sum) timestamp,
      outcomes 0)
    :: sendChunksFrom outcomes 1 (senderChunkStream queue)

/-- Modelled from the spec: the receive engine is in the part of app.js that
is missing from the file.  Per §4.3 receiver steps 2-3, chunks are appended
to the active file's buffer and counted until the advertised size is reached;
a zero-size file completes with no chunks, and a chunk overrunning the
advertised size is a protocol violation (`none`).  Returns the active file's
chunk buffers and the remaining message stream. -/
def takeFileChunks : Nat → List (List Nat) →
    Option (List (List Nat) × List (List Nat))
  | 0, msgs => some ([], msgs)
  | _ + 1, [] => none
  | sz + 1, c :: rest =>
    if c.length = 0 ∨ sz + 1 < c.length then none
    else
      match takeFileChunks (sz + 1 - c.length) rest with
      | some (cs, rem) => some (c :: cs, rem)
      | none => none
termination_by structural _ msgs => msgs

/-- Modelled from the spec: the whole receive loop (§4.3 receiver steps 1-4),
driven by the sizes advertised in the metadata message.  Each completed
file's ordered chunk buffers are concatenated into its final artifact; a
stream that does not match the advertised sizes yields `none`. -/
def receiveFiles : List Nat → List (List Nat) → Option (List (List Nat))
  | [], msgs => if msgs.isEmpty then some [] else none
  | sz :: szs, msgs =>
    match takeFileChunks sz msgs with
    | some (cs, rem) =>
      match receiveFiles szs rem with
      | some arts => some (cs.flatten :: arts)
      | none => none
    | none => none

/-- The simple-peer object as `sendData` inspects it. -/
structure PeerC where
  connected : Bool
deriving DecidableEq

/-- `sendData` (app.js lines 254-267): returns `false` when the peer is
absent or not connected; otherwise calls `peer.send` inside a try/catch and
returns `false` from the catch when the send throws, `true` otherwise.  The
`Except` result records that no exception escapes to the caller. -/
def sendData (peer : Option PeerC) (sendThrows : Bool) : Except String Bool :=
  match peer with
  | none => .ok false
  | some p =>
    if !p.connected then .ok false
    else if sendThrows then .ok false
    else .ok true

/-- The UI fields `cleanup` resets (app.js lines 281-286). -/
structure UIState where
  discoverText : String
  progressValue : Nat
  progressText : String
  speedText : String
deriving DecidableEq

/-- The client state touched by `cleanup`. -/
structure AppState where
  peer : Option Nat
  selectedPeerId : String
  ui : UIState
deriving DecidableEq

/-- `cleanup` (app.js lines 270-287): if a peer exists it is destroyed inside
a try/catch (a throwing `destroy` is logged, not re-raised) and the reference
is set to `null`; then the selected peer id and the progress UI are reset.
`destroyThrows` is whether `peer.destroy()` throws; the `Except` result
records that `cleanup` itself never raises. -/
def cleanup (destroyThrows : Bool) (s : AppState) : Except String AppState :=
  let s1 := match s.peer with
    | some _ => { s with peer := none }
    | none => s
  .ok { s1 with
        selectedPeerId := ""
      , ui := { discoverText := "Discover Peers", progressValue := 0
              , progressText := "0%", speedText := "Speed: 0 KB/s" } }

/-- Primitive effects on the peer-connection slot, for tracing the order of
operations in `initiateTransfer` and `cleanup`. -/
inductive PAction where
  | destroy (p : Nat)
  | setNull
  | create (p : Nat)
deriving DecidableEq

/-- `initiateTransfer` (app.js lines 190-200): an existing peer connection is
destroyed and the reference nulled before the new `SimplePeer` is created. -/
def initiateTransferActions (peer : Option Nat) (newPeer : Nat) : List PAction :=
  (match peer with
   | some p => [.destroy p, .setNull]
   | none => []) ++ [.create newPeer]

/-- The peer-slot part of `cleanup` (app.js lines 271-278): destroy, then null. -/
def cleanupActions (peer : Option Nat) : List PAction :=
  match peer with
  | some p => [.destroy p, .setNull]
  | none => []

/-- Live (created and not yet destroyed) peer objects under an action. -/
def liveStep (live : List Nat) : PAction → List Nat
  | .destroy p => live.erase p
  | .setNull => live
  | .create p => p :: live

/-- The `state.peer` slot under an action. -/
def slotStep (slot : Option Nat) : PAction → Option Nat
  | .destroy _ => slot
  | .setNull => none
  | .create p => some p

/-! ## Helper lemmas -/

theorem chunksOfFuel_eq_of_le (n : Nat) (hn : n ≠ 0) :
    ∀ (fuel fuel' : Nat) (l : List Nat), l.length ≤ fuel → l.length ≤ fuel' →
      chunksOfFuel n fuel l = chunksOfFuel n fuel' l := by
  intro fuel
  induction fuel with
  | zero =>
    intro fuel' l h h'
    have hl : l = [] := by
      cases l with
      | nil => rfl
      | cons a t => simp at h
    subst hl
    cases fuel' <;> rfl
  | succ g ih =>
    intro fuel' l h h'
    cases l with
    | nil => cases fuel' <;> rfl
    | cons a l' =>
      cases fuel' with
      | zero =>
        exfalso
        simp at h'
      | succ g' =>
        have hpos : 0 < n := Nat.pos_of_ne_zero hn
        simp only [chunksOfFuel]
        congr 1
        apply ih
        · rw [List.length_drop]
          simp only [List.length_cons] at h ⊢
          omega
        · rw [List.length_drop]
          simp only [List.length_cons] at h' ⊢
          omega

theorem chunksOf_cons (n : Nat) (hn : n ≠ 0) (l : List Nat) (hl : l ≠ []) :
    chunksOf n l = l.take n :: chunksOf n (l.drop n) := by
  cases l with
  | nil => exact absurd rfl hl
  | cons a l' =>
    have hpos : 0 < n := Nat.pos_of_ne_zero hn
    simp only [chunksOf, List.length_cons, chunksOfFuel]
    congr 1
    apply chunksOfFuel_eq_of_le n hn
    · rw [List.length_drop]
      simp only [List.length_cons]
      omega
    · exact Nat.le_refl _

theorem chunksOf_flatten (n : Nat) (hn : n ≠ 0) (l : List Nat) :
    (chunksOf n l).flatten = l := by
  by_cases hl : l = []
  · subst hl; rfl
  · rw [chunksOf_cons n hn l hl, List.flatten_cons,
      chunksOf_flatten n hn (l.drop n), List.take_append_drop]
termination_by l.length
decreasing_by
  rw [List.length_drop]
  exact Nat.sub_lt (List.length_pos.mpr hl) (Nat.pos_of_ne_zero hn)

theorem takeFileChunks_chunksOf (n : Nat) (hn : n ≠ 0) (l : List Nat)
    (rest : List (List Nat)) :
    takeFileChunks l.length (chunksOf n l ++ rest) = some (chunksOf n l, rest) := by
  by_cases hl : l = []
  · subst hl
    simp [chunksOf, chunksOfFuel, takeFileChunks]
  · obtain ⟨sz, hsz⟩ : ∃ sz, l.length = sz + 1 := by
      cases l with
      | nil => exact absurd rfl hl
      | cons a l' => exact ⟨l'.length, rfl⟩
    have hlen : (l.take n).length + (l.drop n).length = l.length := by
      rw [← List.length_append, List.take_append_drop]
    have htne : (l.take n).length ≠ 0 := by
      rw [List.length_take]
      have h1 : 0 < n := Nat.pos_of_ne_zero hn
      have h2 : 0 < l.length := List.length_pos.mpr hl
      omega
    have htle : (l.take n).length ≤ l.length := by
      rw [List.length_take]
      exact Nat.min_le_right _ _
    have ihcall := takeFileChunks_chunksOf n hn (l.drop n) rest
    rw [chunksOf_cons n hn l hl, hsz]
    simp only [List.cons_append, takeFileChunks]
    rw [if_neg (by omega)]
    have harg : sz + 1 - (l.take n).length = (l.drop n).length := by omega
    rw [harg]
    simp only [List.append_eq]
    rw [ihcall]
termination_by l.length
decreasing_by
  rw [List.length_drop]
  exact Nat.sub_lt (List.length_pos.mpr hl) (Nat.pos_of_ne_zero hn)

theorem receiveFiles_chunkStream (queue : List QFile) :
    receiveFiles (queue.map QFile.size) (senderChunkStream queue)
      = some (queue.map QFile.bytes) := by
  induction queue with
  | nil => rfl
  | cons f fs ih =>
    have hC : CHUNK_SIZE ≠ 0 := by decide
    have hstream : senderChunkStream (f :: fs)
        = chunksOf CHUNK_SIZE f.bytes ++ senderChunkStream fs := by
      simp [senderChunkStream]
    simp only [List.map_cons, hstream, receiveFiles, QFile.size]
    rw [takeFileChunks_chunksOf CHUNK_SIZE hC f.bytes (senderChunkStream fs)]
    simp [ih, chunksOf_flatten CHUNK_SIZE hC]

theorem filter_isMetadata_map_chunk (cs : List (List Nat)) :
    (cs.map Msg.chunk).filter Msg.isMetadata = [] := by
  induction cs with
  | nil => rfl
  | cons c cs ih => simp [Msg.isMetadata, ih]

theorem sendChunksFrom_halt (outcomes : Nat → Bool) :
    ∀ (cs : List (List Nat)) (k i : Nat) (m : Msg),
      (sendChunksFrom outcomes k cs).get? i = some (m, false) →
      (sendChunksFrom outcomes k cs).length = i + 1 := by
  intro cs
  induction cs with
  | nil =>
    intro k i m h
    simp [sendChunksFrom] at h
  | cons c cs ih =>
    intro k i m h
    by_cases ho : outcomes k
    · rw [sendChunksFrom, if_pos ho] at h ⊢
      cases i with
      | zero => simp at h
      | succ j =>
        have hlen := ih (k + 1) j m (by simpa using h)
        simp [hlen]
    · rw [sendChunksFrom, if_neg ho] at h ⊢
      cases i with
      | zero => rfl
      | succ j => simp at h

/-! ## Claim theorems -/

/-- Claim C1: for every queued file sent over the channel with every send
succeeding, the byte sequence the receiver reassembles (driven by the sizes
advertised in the metadata descriptors) equals the original file's bytes:
chunked sending followed by ordered reassembly is the identity. -/
theorem transfer_roundtrip_identity (queue : List QFile) :
    receiveFiles ((queue.map descriptor).map FileMeta.size) (senderChunkStream queue)
      = some (queue.map QFile.bytes) := by
  have h : (queue.map descriptor).map FileMeta.size = queue.map QFile.size := by
    simp only [List.map_map]
    rfl
  rw [h]
  exact receiveFiles_chunkStream queue

/-- Claim C2: for a non-empty file queue, the sender's first session message
is the single metadata control message listing a descriptor for every queued
file, its `totalSize` equals the sum of the listed sizes, and no other
message of the session is a metadata message. -/
theorem metadata_sent_once_first (files : List QFile) (ts : Nat)
    (hne : files ≠ []) :
    (startFileTransferMsgs (handleFileSelect files).1 (handleFileSelect files).2
          ts).head?
        = some (.metadata (files.map descriptor) ((files.map QFile.size).sum) ts)
      ∧ ((startFileTransferMsgs (handleFileSelect files).1
            (handleFileSelect files).2 ts).filter Msg.isMetadata).length = 1
      ∧ (files.map descriptor).length = files.length
      ∧ ((files.map descriptor).map FileMeta.size).sum
          = (handleFileSelect files).2 := by
  refine ⟨rfl, ?_, by simp, ?_⟩
  · simp [startFileTransferMsgs, Msg.isMetadata, List.filter_cons,
      filter_isMetadata_map_chunk]
  · simp only [List.map_map, handleFileSelect]
    rfl

theorem metadata_sent_once_first_witness :
    ((startFileTransferMsgs
        (handleFileSelect [⟨"a.txt", "text/plain", 0, [1]⟩]).1
        (handleFileSelect [⟨"a.txt", "text/plain", 0, [1]⟩]).2 0).filter
          Msg.isMetadata).length = 1 :=
  (metadata_sent_once_first [⟨"a.txt", "text/plain", 0, [1]⟩] 0 (by decide)).2.1

/-- Claim C3: an `offer(payload, targetId)` received from the socket
`sourceId` is forwarded to `targetId` as `offer(payload, sourceId)`: payload
unchanged, and the attached sender identity is the relay-known socket id of
the sender, never a client-supplied value. -/
theorem offer_relay_injects_sender (connectedIds : List String)
    (payload targetId sourceId : String) :
    handleSocketEvent connectedIds sourceId (.offer payload targetId)
      = [(targetId, .offer payload sourceId)] := rfl

/-- Claim C4 counterexample: in a session with one 3-byte file where the
metadata send fails (the underlying send throws once) and every later send
succeeds, `startFileTransfer` still runs the chunk stage, so a chunk message
is sent after the failed send — the engine does not halt. -/
theorem metadata_send_failure_not_halting :
    (startFileTransferAttempts [⟨"a.txt", "text/plain", 0, [1, 2, 3]⟩] 0
        (fun k => k != 0)).get? 0
        = some (.metadata [⟨"a.txt", "text/plain", 3, 0⟩] 3 0, false)
      ∧ (startFileTransferAttempts [⟨"a.txt", "text/plain", 0, [1, 2, 3]⟩] 0
        (fun k => k != 0)).get? 1
        = some (.chunk [1, 2, 3], true) := by
  decide

/-- Claim C4 (amended): a failed send during the chunk stage halts the
transfer — the failed attempt is the session's last — but `startFileTransfer`
discards the result of the metadata send and invokes the chunk stage
unconditionally, so a failed metadata send does not halt the session. -/
theorem chunk_send_failure_halts (queue : List QFile) (ts : Nat)
    (outcomes : Nat → Bool) :
    startFileTransferAttempts queue ts outcomes
        = (.metadata (queue.map descriptor) ((queue.map QFile.size).sum) ts,
            outcomes 0) :: sendChunksFrom outcomes 1 (senderChunkStream queue)
      ∧ ∀ i m,
          (startFileTransferAttempts queue ts outcomes).get? (i + 1)
              = some (m, false) →
          (startFileTransferAttempts queue ts outcomes).length = i + 2 := by
  refine ⟨rfl, ?_⟩
  intro i m h
  have h' : (sendChunksFrom outcomes 1 (senderChunkStream queue)).get? i
      = some (m, false) := by
    simpa [startFileTransferAttempts] using h
  have hlen := sendChunksFrom_halt outcomes (senderChunkStream queue) 1 i m h'
  simp only [startFileTransferAttempts, List.length_cons, hlen]

theorem chunk_send_failure_halts_witness :
    (startFileTransferAttempts [⟨"a.txt", "text/plain", 0, [7]⟩] 0
        (fun k => k == 0)).length = 0 + 2 :=
  (chunk_send_failure_halts [⟨"a.txt", "text/plain", 0, [7]⟩] 0
      (fun k => k == 0)).2 0 (.chunk [7]) (by decide)

/-- Claim C5 counterexample: with `peerA` and `peerB` connected, a `discover`
request from `peerA` produces no emission at all — in particular `peerA` is
not sent the peer set — because i.js registers no `discover` handler. -/
theorem discover_request_ignored :
    handleSocketEvent ["peerA", "peerB"] "peerA" .discover = []
      ∧ ("peerA", SignalEmit.peers ["peerB"])
          ∉ handleSocketEvent ["peerA", "peerB"] "peerA" .discover := by
  exact ⟨rfl, by decide⟩

/-- Claim C5 (amended): the relay has no `discover` handler, so a `discover`
request elicits no emission; the current peer set reaches an endpoint only
through the periodic (3000 ms) `broadcastPeers` push, which emits to the
endpoint every other connected identifier and never its own. -/
theorem discover_unhandled_periodic_push_only (connectedIds : List String)
    (selfId : String) :
    handleSocketEvent connectedIds selfId .discover = []
      ∧ (broadcastPeers connectedIds selfId).1 = selfId
      ∧ (broadcastPeers connectedIds selfId).2
          = .peers (connectedIds.filter (fun id => id != selfId))
      ∧ selfId ∉ connectedIds.filter (fun id => id != selfId)
      ∧ ∀ other, other ∈ connectedIds → other ≠ selfId →
          other ∈ connectedIds.filter (fun id => id != selfId) := by
  refine ⟨rfl, rfl, rfl, ?_, ?_⟩
  · intro hmem
    have hprop := List.of_mem_filter hmem
    simp at hprop
  · intro other hin hne
    exact List.mem_filter.mpr ⟨hin, by simpa using hne⟩

theorem discover_unhandled_periodic_push_only_witness :
    "peerB" ∈ ["peerA", "peerB"].filter (fun id => id != "peerA") :=
  (discover_unhandled_periodic_push_only ["peerA", "peerB"] "peerA").2.2.2.2
    "peerB" (by decide) (by decide)

/-- Claim C6: the options handed to `io(...)` read `maxConnectionAttempts`
from the `config` object, which has no such key — the bound `5` lives on the
`state` object — so `reconnectionAttempts` is `undefined` and the advertised
5-attempt bound is never passed to the socket library; only the 3000 ms
delay is wired through correctly. -/
theorem reconnection_attempts_key_missing :
    initializeSocketOptions.reconnectionAttempts = none
      ∧ initializeSocketOptions.reconnectionDelay = some (.num 3000)
      ∧ jsGet stateObj "maxConnectionAttempts" = some (.num 5)
      ∧ initializeSocketOptions.reconnection = true := by
  exact ⟨rfl, rfl, rfl, rfl⟩

/-- Claim C7: the `/network` handler always answers with a JSON object
carrying both `localIp` and `publicUrl`, and the client-side wrapper turns
every failure (non-ok response or thrown fetch) into a successful result
with `localIp` null instead of propagating an error. -/
theorem network_endpoint_best_effort (ipAddress codespaceName forwardDomain :
    String) (o : FetchOutcome) :
    (networkHandler ipAddress codespaceName forwardDomain).localIp
        = some ipAddress
      ∧ (networkHandler ipAddress codespaceName forwardDomain).publicUrl.isSome
          = true
      ∧ (∃ info, fetchNetworkInfo o = .ok info)
      ∧ fetchNetworkInfo .notOk = .ok { localIp := none, publicUrl := none }
      ∧ fetchNetworkInfo .fetchFailed
          = .ok { localIp := none, publicUrl := none } := by
  refine ⟨rfl, rfl, ?_, rfl, rfl⟩
  cases o <;> exact ⟨_, rfl⟩

/-- Claim C8: `cleanup` is idempotent and never raises — a second call on an
already-cleaned state returns exactly the state the first call produced,
whether or not `peer.destroy()` throws. -/
theorem cleanup_idempotent (destroyThrows1 destroyThrows2 : Bool)
    (s : AppState) :
    ∃ t, cleanup destroyThrows1 s = .ok t ∧ cleanup destroyThrows2 t = .ok t := by
  cases s with
  | mk peer sel ui => cases peer <;> exact ⟨_, rfl, rfl⟩

/-- Claim C9: `sendData` is total — it returns a boolean for every input and
propagates no exception — returning `true` exactly when a peer exists, is
connected, and the underlying send does not throw. -/
theorem sendData_total (peer : Option PeerC) (sendThrows : Bool) :
    (∃ b, sendData peer sendThrows = .ok b)
      ∧ (sendData peer sendThrows = .ok true
          ↔ (∃ p, peer = some p ∧ p.connected = true) ∧ sendThrows = false) := by
  cases peer with
  | none => simp [sendData]
  | some p =>
    obtain ⟨c⟩ := p
    cases c <;> cases sendThrows <;> simp [sendData]

/-- Claim C10: at most one peer connection is live at any point —
`initiateTransfer` destroys and nulls any existing peer before creating the
new one (every intermediate live-peer set has size at most one and the slot
ends at the new peer), and `cleanup` destroys the peer and nulls the slot. -/
theorem single_peer_connection (peer : Option Nat) (newPeer : Nat) :
    (∀ l ∈ List.scanl liveStep peer.toList (initiateTransferActions peer newPeer),
        l.length ≤ 1)
      ∧ (initiateTransferActions peer newPeer).foldl slotStep peer = some newPeer
      ∧ (∀ l ∈ List.scanl liveStep peer.toList (cleanupActions peer),
          l.length ≤ 1)
      ∧ (cleanupActions peer).foldl slotStep peer = none := by
  cases peer with
  | none =>
    have hscan : List.scanl liveStep (Option.toList (none : Option Nat))
        (initiateTransferActions none newPeer) = [[], [newPeer]] := by
      simp [initiateTransferActions, List.scanl, liveStep]
    refine ⟨?_, rfl, ?_, rfl⟩
    · intro l hl
      rw [hscan] at hl
      simp only [List.mem_cons, List.not_mem_nil, or_false] at hl
      rcases hl with rfl | rfl <;> simp
    · intro l hl
      simp only [cleanupActions, Option.toList, List.scanl,
        List.mem_cons, List.not_mem_nil, or_false] at hl
      subst hl
      simp
  | some p =>
    have hscan : List.scanl liveStep (Option.toList (some p))
        (initiateTransferActions (some p) newPeer) = [[p], [], [], [newPeer]] := by
      simp [initiateTransferActions, List.scanl, liveStep, List.erase_cons_head]
    have hscan2 : List.scanl liveStep (Option.toList (some p))
        (cleanupActions (some p)) = [[p], [], []] := by
      simp [cleanupActions, List.scanl, liveStep, List.erase_cons_head]
    refine ⟨?_, rfl, ?_, rfl⟩
    · intro l hl
      rw [hscan] at hl
      simp only [List.mem_cons, List.not_mem_nil, or_false] at hl
      rcases hl with rfl | rfl | rfl | rfl <;> simp
    · intro l hl
      rw [hscan2] at hl
      simp only [List.mem_cons, List.not_mem_nil, or_false] at hl
      rcases hl with rfl | rfl | rfl <;> simp

theorem single_peer_connection_witness :
    (initiateTransferActions (some 2) 3).foldl slotStep (some 2) = some 3
      ∧ ([3] : List Nat).length ≤ 1 :=
  ⟨(single_peer_connection (some 2) 3).2.1,
   (single_peer_connection (some 2) 3).1 [3] (by decide)⟩

end P2P
